import Mathlib

/-!
Verification of the ADSE exploration project.

This file gives a shallow embedding of the three source modules
(`config_models.py`, `main.py`, `analyzer.py`) and proves or refutes the
frozen specification claims about them.

Conventions used in the embedding:
* Python `Optional[T]` fields become `Option` fields.
* Python lists become `List`; `itertools.product(a, b, ...)` becomes nested
  `List.flatMap` with the first argument outermost, which is exactly the
  iteration order `itertools.product` documents.
* Python string formatting of integers becomes `toString` on `Int`.
* `x if x else [None]` / `x or [None]` on lists becomes `orNone`.
-/

namespace ADSE

/-- Embeds `CacheInstance` (config_models.py lines 8-31). -/
structure CacheInstance where
  cache_size : Option Int
  cache_block_size : Option Int
  associativity : Option Int
  replacement : Option String
deriving Repr, DecidableEq

/-- Embeds `CacheInstance.to_cli_args`: one `"perf_model/<pfx>/<param>=<value>"`
string (with literal double quotes) per set field, in field order. -/
def CacheInstance.to_cli_args (c : CacheInstance) (pfx : String) : List String :=
  (match c.cache_size with
    | some v => ["\"perf_model/" ++ pfx ++ "/cache_size=" ++ toString v ++ "\""]
    | none => []) ++
  (match c.cache_block_size with
    | some v => ["\"perf_model/" ++ pfx ++ "/cache_block_size=" ++ toString v ++ "\""]
    | none => []) ++
  (match c.associativity with
    | some v => ["\"perf_model/" ++ pfx ++ "/associativity=" ++ toString v ++ "\""]
    | none => []) ++
  (match c.replacement with
    | some v => ["\"perf_model/" ++ pfx ++ "/replacement=" ++ v ++ "\""]
    | none => [])

/-- Embeds `TLBInstance` (config_models.py lines 34-53). -/
structure TLBInstance where
  entries : Option Int
  associativity : Option Int
  page_size : Option Int
deriving Repr, DecidableEq

/-- Embeds `TLBInstance.to_cli_args`. -/
def TLBInstance.to_cli_args (t : TLBInstance) (pfx : String) : List String :=
  (match t.entries with
    | some v => ["\"perf_model/" ++ pfx ++ "/entries=" ++ toString v ++ "\""]
    | none => []) ++
  (match t.associativity with
    | some v => ["\"perf_model/" ++ pfx ++ "/associativity=" ++ toString v ++ "\""]
    | none => []) ++
  (match t.page_size with
    | some v => ["\"perf_model/" ++ pfx ++ "/page_size=" ++ toString v ++ "\""]
    | none => [])

/-- Embeds `ConfigurationSet` (config_models.py lines 56-100); each slot holds
`None` or a device instance, as in the dataclass defaults. -/
structure ConfigurationSet where
  l1_icache : Option CacheInstance
  l1_dcache : Option CacheInstance
  l2_cache : Option CacheInstance
  l3_cache : Option CacheInstance
  l4_cache : Option CacheInstance
  itlb : Option TLBInstance
  dtlb : Option TLBInstance
deriving Repr, DecidableEq

/-- Embeds `ConfigurationSet.to_cli_args`: concatenation in the source order
itlb, dtlb, l1_icache, l1_dcache, l2, l3, l4 (a dataclass instance is always
truthy, so `if self.itlb:` tests only for `None`). -/
def ConfigurationSet.to_cli_args (cs : ConfigurationSet) : List String :=
  (match cs.itlb with | some t => t.to_cli_args "itlb" | none => []) ++
  (match cs.dtlb with | some t => t.to_cli_args "dtlb" | none => []) ++
  (match cs.l1_icache with | some c => c.to_cli_args "l1_icache" | none => []) ++
  (match cs.l1_dcache with | some c => c.to_cli_args "l1_dcache" | none => []) ++
  (match cs.l2_cache with | some c => c.to_cli_args "l2_cache" | none => []) ++
  (match cs.l3_cache with | some c => c.to_cli_args "l3_cache" | none => []) ++
  (match cs.l4_cache with | some c => c.to_cli_args "l4_cache" | none => [])

/-- Embeds the Python idiom `xs if xs else [None]` (equivalently `xs or [None]`)
applied to a list whose elements then flow into `Optional` positions. -/
def orNone {α : Type} (xs : List α) : List (Option α) :=
  if xs.isEmpty then [none] else xs.map some

/-- Embeds `CacheConfig` (config_models.py lines 103-119). -/
structure CacheConfig where
  cache_size : List Int
  cache_block_size : List Int
  associativity : List Int
  replacement : List String
deriving Repr, DecidableEq

/-- Embeds `CacheConfig.generate_combinations`: empty list when no axis has a
value, otherwise the `itertools.product` over the four axes with `[None]`
substituted for an empty axis. -/
def CacheConfig.generate_combinations (c : CacheConfig) : List CacheInstance :=
  if c.cache_size.isEmpty && c.cache_block_size.isEmpty
      && c.associativity.isEmpty && c.replacement.isEmpty then
    []
  else
    (orNone c.cache_size).flatMap fun s =>
    (orNone c.cache_block_size).flatMap fun b =>
    (orNone c.associativity).flatMap fun a =>
    (orNone c.replacement).map fun r =>
      { cache_size := s, cache_block_size := b, associativity := a, replacement := r }

/-- Embeds `TLBConfig` (config_models.py lines 122-136). -/
structure TLBConfig where
  entries : List Int
  associativity : List Int
  page_size : List Int
deriving Repr, DecidableEq

/-- Embeds `TLBConfig.generate_combinations`. -/
def TLBConfig.generate_combinations (t : TLBConfig) : List TLBInstance :=
  if t.entries.isEmpty && t.associativity.isEmpty && t.page_size.isEmpty then
    []
  else
    (orNone t.entries).flatMap fun e =>
    (orNone t.associativity).flatMap fun a =>
    (orNone t.page_size).map fun p =>
      { entries := e, associativity := a, page_size := p }

/-- Embeds `CachesConfig` (config_models.py lines 139-144). -/
structure CachesConfig where
  l1_icache : CacheConfig
  l1_dcache : CacheConfig
  l2_cache : CacheConfig
  l3_cache : CacheConfig
  l4_cache : CacheConfig
deriving Repr, DecidableEq

/-- Embeds `TLBsConfig` (config_models.py lines 147-149). -/
structure TLBsConfig where
  itlb : TLBConfig
  dtlb : TLBConfig
deriving Repr, DecidableEq

/-- Embeds `ExplorerConfig` (config_models.py lines 152-188), restricted to the
pure part (the JSON load/save wrappers are I/O collaborators). -/
structure ExplorerConfig where
  caches : CachesConfig
  TLBs : TLBsConfig
deriving Repr, DecidableEq

/-- Embeds `ExplorerConfig.generate_all_configurations`:
`itertools.product(l1_icache, l1_dcache, l2, l3, l4, itlb, dtlb)` after each
combination list is replaced by `[None]` when empty (`or [None]`); the first
product argument is outermost, i.e. varies slowest. -/
def ExplorerConfig.generate_all_configurations (e : ExplorerConfig) : List ConfigurationSet :=
  (orNone e.caches.l1_icache.generate_combinations).flatMap fun c1 =>
  (orNone e.caches.l1_dcache.generate_combinations).flatMap fun c2 =>
  (orNone e.caches.l2_cache.generate_combinations).flatMap fun c3 =>
  (orNone e.caches.l3_cache.generate_combinations).flatMap fun c4 =>
  (orNone e.caches.l4_cache.generate_combinations).flatMap fun c5 =>
  (orNone e.TLBs.itlb.generate_combinations).flatMap fun c6 =>
  (orNone e.TLBs.dtlb.generate_combinations).map fun c7 =>
    { l1_icache := c1, l1_dcache := c2, l2_cache := c3, l3_cache := c4,
      l4_cache := c5, itlb := c6, dtlb := c7 }

/-! ### The Cartesian-product structure of `generate_all_configurations` -/

/-- Binary list product in `itertools.product` order: the first list is the
outer (slowest-varying) loop. -/
def lprod {α β : Type} (xs : List α) (ys : List β) : List (α × β) :=
  xs.flatMap fun a => ys.map fun b => (a, b)

theorem lprod_length {α β : Type} (xs : List α) (ys : List β) :
    (lprod xs ys).length = xs.length * ys.length := by
  induction xs with
  | nil => simp [lprod]
  | cons x xs ih =>
      simp only [lprod, List.flatMap_cons, List.length_append, List.length_map,
        List.length_cons] at *
      rw [ih]
      ring

theorem lprod_get? {α β : Type} (xs : List α) (ys : List β) (i : Nat)
    (h : i < Nat.mul xs.length ys.length) :
    (lprod xs ys).get? i =
      (xs.get? (i / ys.length)).bind fun a =>
        (ys.get? (i % ys.length)).map fun b => (a, b) := by
  induction xs generalizing i with
  | nil => simp at h
  | cons x xs ih =>
      have hy : 0 < ys.length := by
        rcases Nat.eq_zero_or_pos ys.length with h0 | h0
        · rw [h0] at h; simp [Nat.mul_zero] at h
        · exact h0
      by_cases hlt : i < ys.length
      · have hdiv : i / ys.length = 0 := Nat.div_eq_of_lt hlt
        have hmod : i % ys.length = i := Nat.mod_eq_of_lt hlt
        rw [hdiv, hmod]
        simp only [lprod, List.flatMap_cons, List.get?_cons_zero]
        rw [List.get?_append (by simpa using hlt)]
        simp [List.get?_map]
      · have hge : ys.length ≤ i := Nat.le_of_not_lt hlt
        have hi' : i - ys.length < Nat.mul xs.length ys.length := by
          have : i < ys.length + Nat.mul xs.length ys.length := by
            simpa [Nat.succ_mul, Nat.add_comm] using h
          omega
        have heq : i = (i - ys.length) + ys.length := by omega
        have hdiv : i / ys.length = (i - ys.length) / ys.length + 1 := by
          conv_lhs => rw [heq]
          rw [Nat.add_div_right _ hy]
        have hmod : i % ys.length = (i - ys.length) % ys.length := by
          conv_lhs => rw [heq]
          rw [Nat.add_mod_right]
        simp only [lprod, List.flatMap_cons]
        rw [List.get?_append_right (by simpa using hge)]
        simp only [List.length_map]
        rw [hdiv, hmod, List.get?_cons_succ]
        exact ih _ hi'

/-- `generate_all_configurations` is a `map` over the nested binary product of
the seven per-role instance lists, in source argument order. -/
theorem generate_all_eq_lprod (e : ADSE.ExplorerConfig) :
    e.generate_all_configurations =
      (lprod (orNone e.caches.l1_icache.generate_combinations)
        (lprod (orNone e.caches.l1_dcache.generate_combinations)
          (lprod (orNone e.caches.l2_cache.generate_combinations)
            (lprod (orNone e.caches.l3_cache.generate_combinations)
              (lprod (orNone e.caches.l4_cache.generate_combinations)
                (lprod (orNone e.TLBs.itlb.generate_combinations)
                  (orNone e.TLBs.dtlb.generate_combinations))))))).map
        (fun t =>
          { l1_icache := t.1, l1_dcache := t.2.1, l2_cache := t.2.2.1,
            l3_cache := t.2.2.2.1, l4_cache := t.2.2.2.2.1,
            itlb := t.2.2.2.2.2.1, dtlb := t.2.2.2.2.2.2 }) := by
  simp only [ADSE.ExplorerConfig.generate_all_configurations, lprod,
    List.map_flatMap, List.map_map, Function.comp_def]

/-- The per-role factor in the configuration count: a role with `n > 0`
combinations contributes `n`; a role with none contributes the singleton. -/
def roleCount (n : Nat) : Nat := if n = 0 then 1 else n

theorem orNone_length {α : Type} (xs : List α) :
    (orNone xs).length = roleCount xs.length := by
  by_cases h : xs.isEmpty
  · simp [orNone, h, roleCount, List.isEmpty_iff.mp h]
  · have : xs.length ≠ 0 := by
      simpa [List.isEmpty_iff, List.length_eq_zero] using h
    simp [orNone, h, roleCount, this]

theorem roleCount_pos (n : Nat) : 0 < roleCount n := by
  unfold roleCount
  split <;> omega

theorem roleCount_of_pos {n : Nat} (h : 0 < n) : roleCount n = n := by
  unfold roleCount
  split <;> omega

/-- `CacheConfig.generate_combinations`, in the configured case, is a `map`
over the nested binary product of the four axis lists. -/
theorem cache_comb_eq_lprod (c : CacheConfig)
    (h : (c.cache_size.isEmpty && c.cache_block_size.isEmpty
        && c.associativity.isEmpty && c.replacement.isEmpty) = false) :
    c.generate_combinations =
      (lprod (orNone c.cache_size)
        (lprod (orNone c.cache_block_size)
          (lprod (orNone c.associativity) (orNone c.replacement)))).map
        (fun t =>
          { cache_size := t.1, cache_block_size := t.2.1,
            associativity := t.2.2.1, replacement := t.2.2.2 }) := by
  rw [CacheConfig.generate_combinations, if_neg (by simp [h])]
  simp only [lprod, List.map_flatMap, List.map_map, Function.comp_def]

/-- `TLBConfig.generate_combinations`, in the configured case, is a `map`
over the nested binary product of the three axis lists. -/
theorem tlb_comb_eq_lprod (t : TLBConfig)
    (h : (t.entries.isEmpty && t.associativity.isEmpty && t.page_size.isEmpty) = false) :
    t.generate_combinations =
      (lprod (orNone t.entries)
        (lprod (orNone t.associativity) (orNone t.page_size))).map
        (fun u => { entries := u.1, associativity := u.2.1, page_size := u.2.2 }) := by
  rw [TLBConfig.generate_combinations, if_neg (by simp [h])]
  simp only [lprod, List.map_flatMap, List.map_map, Function.comp_def]

theorem cache_comb_roleCount (c : CacheConfig) :
    roleCount c.generate_combinations.length =
      roleCount c.cache_size.length * roleCount c.cache_block_size.length *
        roleCount c.associativity.length * roleCount c.replacement.length := by
  by_cases h : (c.cache_size.isEmpty && c.cache_block_size.isEmpty
      && c.associativity.isEmpty && c.replacement.isEmpty) = true
  · have h1 : c.cache_size.length = 0 := by
      simp only [Bool.and_eq_true, List.isEmpty_iff] at h
      simp [h.1.1.1]
    have h2 : c.cache_block_size.length = 0 := by
      simp only [Bool.and_eq_true, List.isEmpty_iff] at h
      simp [h.1.1.2]
    have h3 : c.associativity.length = 0 := by
      simp only [Bool.and_eq_true, List.isEmpty_iff] at h
      simp [h.1.2]
    have h4 : c.replacement.length = 0 := by
      simp only [Bool.and_eq_true, List.isEmpty_iff] at h
      simp [h.2]
    rw [CacheConfig.generate_combinations, if_pos (by simp [h])]
    simp [h1, h2, h3, h4, roleCount]
  · have h' := Bool.eq_false_iff.mpr (fun hc => h hc)
    rw [cache_comb_eq_lprod c (by simpa using h')]
    simp only [List.length_map, lprod_length, orNone_length]
    have hpos : 0 < roleCount c.cache_size.length *
        (roleCount c.cache_block_size.length *
          (roleCount c.associativity.length * roleCount c.replacement.length)) :=
      Nat.mul_pos (roleCount_pos _) (Nat.mul_pos (roleCount_pos _)
        (Nat.mul_pos (roleCount_pos _) (roleCount_pos _)))
    rw [roleCount_of_pos hpos]
    ring

theorem tlb_comb_roleCount (t : TLBConfig) :
    roleCount t.generate_combinations.length =
      roleCount t.entries.length * roleCount t.associativity.length *
        roleCount t.page_size.length := by
  by_cases h : (t.entries.isEmpty && t.associativity.isEmpty && t.page_size.isEmpty) = true
  · have h1 : t.entries.length = 0 := by
      simp only [Bool.and_eq_true, List.isEmpty_iff] at h
      simp [h.1.1]
    have h2 : t.associativity.length = 0 := by
      simp only [Bool.and_eq_true, List.isEmpty_iff] at h
      simp [h.1.2]
    have h3 : t.page_size.length = 0 := by
      simp only [Bool.and_eq_true, List.isEmpty_iff] at h
      simp [h.2]
    rw [TLBConfig.generate_combinations, if_pos (by simp [h])]
    simp [h1, h2, h3, roleCount]
  · have h' := Bool.eq_false_iff.mpr (fun hc => h hc)
    rw [tlb_comb_eq_lprod t (by simpa using h')]
    simp only [List.length_map, lprod_length, orNone_length]
    have hpos : 0 < roleCount t.entries.length *
        (roleCount t.associativity.length * roleCount t.page_size.length) :=
      Nat.mul_pos (roleCount_pos _) (Nat.mul_pos (roleCount_pos _) (roleCount_pos _))
    rw [roleCount_of_pos hpos]
    ring

/-- C1: for every `ExplorerConfig` the number of `ConfigurationSet`s returned
by `generate_all_configurations` equals the product, over the seven device
roles, of the number of axis-value combinations configured for that role
(`generate_combinations.length`), taking 1 for a role with no configured axes;
and each role's combination count is itself the product of its per-axis value
counts (so, e.g., 2 sizes and 3 associativities on one device with all other
devices unconfigured give 2 * 3 = 6 configurations). -/
theorem generate_all_configurations_count :
    (∀ e : ExplorerConfig,
      e.generate_all_configurations.length =
        roleCount e.caches.l1_icache.generate_combinations.length *
        roleCount e.caches.l1_dcache.generate_combinations.length *
        roleCount e.caches.l2_cache.generate_combinations.length *
        roleCount e.caches.l3_cache.generate_combinations.length *
        roleCount e.caches.l4_cache.generate_combinations.length *
        roleCount e.TLBs.itlb.generate_combinations.length *
        roleCount e.TLBs.dtlb.generate_combinations.length) ∧
    (∀ c : CacheConfig,
      roleCount c.generate_combinations.length =
        roleCount c.cache_size.length * roleCount c.cache_block_size.length *
          roleCount c.associativity.length * roleCount c.replacement.length) ∧
    (∀ t : TLBConfig,
      roleCount t.generate_combinations.length =
        roleCount t.entries.length * roleCount t.associativity.length *
          roleCount t.page_size.length) := by
  refine ⟨fun e => ?_, cache_comb_roleCount, tlb_comb_roleCount⟩
  rw [generate_all_eq_lprod]
  simp only [List.length_map, lprod_length, orNone_length]
  ring

/-! ### Enumeration order of `generate_all_configurations` -/

/-- Per-role instance list actually multiplied into the product, in source
argument order (`l1_icache` is the first, outermost `itertools.product`
argument). -/
def cfgList1 (e : ExplorerConfig) : List (Option CacheInstance) :=
  orNone e.caches.l1_icache.generate_combinations

def cfgList2 (e : ExplorerConfig) : List (Option CacheInstance) :=
  orNone e.caches.l1_dcache.generate_combinations

def cfgList3 (e : ExplorerConfig) : List (Option CacheInstance) :=
  orNone e.caches.l2_cache.generate_combinations

def cfgList4 (e : ExplorerConfig) : List (Option CacheInstance) :=
  orNone e.caches.l3_cache.generate_combinations

def cfgList5 (e : ExplorerConfig) : List (Option CacheInstance) :=
  orNone e.caches.l4_cache.generate_combinations

def cfgList6 (e : ExplorerConfig) : List (Option TLBInstance) :=
  orNone e.TLBs.itlb.generate_combinations

def cfgList7 (e : ExplorerConfig) : List (Option TLBInstance) :=
  orNone e.TLBs.dtlb.generate_combinations

/-- Mixed-radix weights of the seven index digits: `rad1` is the weight of the
`l1_icache` digit (most significant), the `dtlb` digit has weight 1. -/
def rad5 (e : ExplorerConfig) : Nat := (cfgList6 e).length * (cfgList7 e).length

def rad4 (e : ExplorerConfig) : Nat := (cfgList5 e).length * rad5 e

def rad3 (e : ExplorerConfig) : Nat := (cfgList4 e).length * rad4 e

def rad2 (e : ExplorerConfig) : Nat := (cfgList3 e).length * rad3 e

def rad1 (e : ExplorerConfig) : Nat := (cfgList2 e).length * rad2 e

/-- C2 (amended): `generate_all_configurations` enumerates the Cartesian
product in lexicographic order over the source product-argument sequence
l1_icache, l1_dcache, l2_cache, l3_cache, l4_cache, itlb, dtlb: the entry at
index `i` is obtained from the mixed-radix decomposition of `i` in which the
`l1_icache` digit is most significant (slowest-varying) and the `dtlb` digit is
fastest-varying. -/
theorem generate_all_configurations_lex_order (e : ExplorerConfig) (i : Nat)
    (h : i < e.generate_all_configurations.length) :
    e.generate_all_configurations.get? i =
      ((cfgList1 e).get? (i / rad1 e)).bind fun c1 =>
      ((cfgList2 e).get? (i % rad1 e / rad2 e)).bind fun c2 =>
      ((cfgList3 e).get? (i % rad1 e % rad2 e / rad3 e)).bind fun c3 =>
      ((cfgList4 e).get? (i % rad1 e % rad2 e % rad3 e / rad4 e)).bind fun c4 =>
      ((cfgList5 e).get? (i % rad1 e % rad2 e % rad3 e % rad4 e / rad5 e)).bind fun c5 =>
      ((cfgList6 e).get?
          (i % rad1 e % rad2 e % rad3 e % rad4 e % rad5 e / (cfgList7 e).length)).bind fun c6 =>
      ((cfgList7 e).get?
          (i % rad1 e % rad2 e % rad3 e % rad4 e % rad5 e % (cfgList7 e).length)).map fun c7 =>
        ConfigurationSet.mk c1 c2 c3 c4 c5 c6 c7 := by
  have posR : ∀ a b : Nat, 0 < a * b → 0 < b := by
    intro a b hab
    rcases Nat.eq_zero_or_pos b with h0 | h0
    · rw [h0, Nat.mul_zero] at hab
      omega
    · exact h0
  have hlen : e.generate_all_configurations.length = (cfgList1 e).length * rad1 e := by
    rw [generate_all_eq_lprod]
    simp only [List.length_map, lprod_length, cfgList1, cfgList2, cfgList3, cfgList4,
      cfgList5, cfgList6, cfgList7, rad1, rad2, rad3, rad4, rad5]
  rw [hlen] at h
  have hr1 : 0 < rad1 e := posR _ _ (Nat.zero_lt_of_lt h)
  have hr2 : 0 < rad2 e := by
    have h' := hr1
    rw [rad1] at h'
    exact posR _ _ h'
  have hr3 : 0 < rad3 e := by
    have h' := hr2
    rw [rad2] at h'
    exact posR _ _ h'
  have hr4 : 0 < rad4 e := by
    have h' := hr3
    rw [rad3] at h'
    exact posR _ _ h'
  have hr5 : 0 < rad5 e := by
    have h' := hr4
    rw [rad4] at h'
    exact posR _ _ h'
  have hr7 : 0 < (cfgList7 e).length := by
    have h' := hr5
    rw [rad5] at h'
    exact posR _ _ h'
  have hq1 : (lprod (cfgList2 e) (lprod (cfgList3 e) (lprod (cfgList4 e)
      (lprod (cfgList5 e) (lprod (cfgList6 e) (cfgList7 e)))))).length = rad1 e := by
    simp only [lprod_length, rad1, rad2, rad3, rad4, rad5]
  have hq2 : (lprod (cfgList3 e) (lprod (cfgList4 e)
      (lprod (cfgList5 e) (lprod (cfgList6 e) (cfgList7 e))))).length = rad2 e := by
    simp only [lprod_length, rad2, rad3, rad4, rad5]
  have hq3 : (lprod (cfgList4 e)
      (lprod (cfgList5 e) (lprod (cfgList6 e) (cfgList7 e)))).length = rad3 e := by
    simp only [lprod_length, rad3, rad4, rad5]
  have hq4 : (lprod (cfgList5 e) (lprod (cfgList6 e) (cfgList7 e))).length = rad4 e := by
    simp only [lprod_length, rad4, rad5]
  have hq5 : (lprod (cfgList6 e) (cfgList7 e)).length = rad5 e := by
    simp only [lprod_length, rad5]
  have e1 := lprod_get? (cfgList1 e) (lprod (cfgList2 e) (lprod (cfgList3 e)
      (lprod (cfgList4 e) (lprod (cfgList5 e) (lprod (cfgList6 e) (cfgList7 e)))))) i
      (by rw [hq1]; exact h)
  rw [hq1] at e1
  have e2 := lprod_get? (cfgList2 e) (lprod (cfgList3 e) (lprod (cfgList4 e)
      (lprod (cfgList5 e) (lprod (cfgList6 e) (cfgList7 e))))) (i % rad1 e)
      (by rw [hq2]; rw [rad1] at hr1 ⊢; exact Nat.mod_lt _ hr1)
  rw [hq2] at e2
  have e3 := lprod_get? (cfgList3 e) (lprod (cfgList4 e)
      (lprod (cfgList5 e) (lprod (cfgList6 e) (cfgList7 e)))) (i % rad1 e % rad2 e)
      (by rw [hq3]; rw [rad2] at hr2 ⊢; exact Nat.mod_lt _ hr2)
  rw [hq3] at e3
  have e4 := lprod_get? (cfgList4 e)
      (lprod (cfgList5 e) (lprod (cfgList6 e) (cfgList7 e))) (i % rad1 e % rad2 e % rad3 e)
      (by rw [hq4]; rw [rad3] at hr3 ⊢; exact Nat.mod_lt _ hr3)
  rw [hq4] at e4
  have e5 := lprod_get? (cfgList5 e) (lprod (cfgList6 e) (cfgList7 e))
      (i % rad1 e % rad2 e % rad3 e % rad4 e)
      (by rw [hq5]; rw [rad4] at hr4 ⊢; exact Nat.mod_lt _ hr4)
  rw [hq5] at e5
  have e6 := lprod_get? (cfgList6 e) (cfgList7 e)
      (i % rad1 e % rad2 e % rad3 e % rad4 e % rad5 e)
      (by rw [rad5] at hr5 ⊢; exact Nat.mod_lt _ hr5)
  have hgen : e.generate_all_configurations =
      (lprod (cfgList1 e) (lprod (cfgList2 e) (lprod (cfgList3 e) (lprod (cfgList4 e)
        (lprod (cfgList5 e) (lprod (cfgList6 e) (cfgList7 e))))))).map
        (fun t => ConfigurationSet.mk t.1 t.2.1 t.2.2.1 t.2.2.2.1 t.2.2.2.2.1
          t.2.2.2.2.2.1 t.2.2.2.2.2.2) := generate_all_eq_lprod e
  rw [hgen, List.get?_map, e1]
  simp only [e2, e3, e4, e5, e6, Option.map_bind, Option.map_map, Option.bind_map,
    Function.comp_def]

/-- A small exploration request: two itlb entry counts and two l4 cache sizes,
every other role unconfigured. -/
def cfgTwoByTwo : ExplorerConfig :=
  { caches :=
      { l1_icache := ⟨[], [], [], []⟩, l1_dcache := ⟨[], [], [], []⟩,
        l2_cache := ⟨[], [], [], []⟩, l3_cache := ⟨[], [], [], []⟩,
        l4_cache := ⟨[16, 32], [], [], []⟩ },
    TLBs := { itlb := ⟨[1, 2], [], []⟩, dtlb := ⟨[], [], []⟩ } }

/-- C2 counterexample: with two itlb values and two l4-cache values, the claim
(instruction TLB most significant / slowest-varying, L4 cache fastest-varying)
forces entries 0 and 1 to share the itlb instance and differ in l4; the code
produces the opposite: entries 0 and 1 share the l4 instance and differ in
itlb, so itlb varies faster than l4. -/
theorem generate_all_order_counterexample :
    cfgTwoByTwo.generate_all_configurations.length = 4 ∧
    (cfgTwoByTwo.generate_all_configurations.get? 0).map ConfigurationSet.itlb ≠
      (cfgTwoByTwo.generate_all_configurations.get? 1).map ConfigurationSet.itlb ∧
    (cfgTwoByTwo.generate_all_configurations.get? 0).map ConfigurationSet.l4_cache =
      (cfgTwoByTwo.generate_all_configurations.get? 1).map ConfigurationSet.l4_cache := by
  decide

theorem generate_all_configurations_lex_order_witness :
    cfgTwoByTwo.generate_all_configurations.get? 1 =
      some { l1_icache := none, l1_dcache := none, l2_cache := none, l3_cache := none,
             l4_cache := some ⟨some 16, none, none, none⟩,
             itlb := some ⟨some 2, none, none⟩, dtlb := none } :=
  (generate_all_configurations_lex_order cfgTwoByTwo 1 (by decide)).trans (by decide)

/-- C4 counterexample: a device with zero configured axes gets the *empty*
list from `generate_combinations`, not a singleton fully-unset instance. -/
theorem generate_combinations_no_axes_counterexample :
    (CacheConfig.mk [] [] [] []).generate_combinations = [] ∧
    (CacheConfig.mk [] [] [] []).generate_combinations.length ≠ 1 := by
  decide

/-- C4 (amended): a device with zero configured axes yields the empty instance
list from `generate_combinations`; it is the caller
`generate_all_configurations` that replaces the empty list by the singleton
`[none]` (the Python `or [None]`), so the role still participates in the
product as a singleton and never disappears from the enumeration. -/
theorem generate_combinations_no_axes_empty_then_singleton
    (c : CacheConfig) (t : TLBConfig)
    (hc1 : c.cache_size = []) (hc2 : c.cache_block_size = [])
    (hc3 : c.associativity = []) (hc4 : c.replacement = [])
    (ht1 : t.entries = []) (ht2 : t.associativity = []) (ht3 : t.page_size = []) :
    c.generate_combinations = [] ∧ t.generate_combinations = [] ∧
    orNone c.generate_combinations = [none] ∧ orNone t.generate_combinations = [none] := by
  cases c
  cases t
  simp only at hc1 hc2 hc3 hc4 ht1 ht2 ht3
  subst hc1 hc2 hc3 hc4 ht1 ht2 ht3
  decide

theorem generate_combinations_no_axes_empty_then_singleton_witness :
    (CacheConfig.mk [] [] [] []).generate_combinations = [] ∧
    (TLBConfig.mk [] [] []).generate_combinations = [] ∧
    orNone (CacheConfig.mk [] [] [] []).generate_combinations = [none] ∧
    orNone (TLBConfig.mk [] [] []).generate_combinations = [none] :=
  generate_combinations_no_axes_empty_then_singleton _ _ rfl rfl rfl rfl rfl rfl rfl

/-! ### The run driver (main.py) -/

/-- Embeds `ADSEConfig` (config_models.py lines 190-208), pure part only. -/
structure ADSEConfig where
  run_sniper_path : String
  output_dir : String
  cfgfile : String
  benchmark_path : String
  parameters : ExplorerConfig
deriving Repr, DecidableEq

/-- Embeds the argv list built in main.py lines 37-52 for the configuration at
1-based index `idx`: base flags, then `-c <override>` for each serialized
override (the override string still carrying its literal quotes), then the
output directory and benchmark. -/
def buildCommand (cfg : ADSEConfig) (idx : Nat) (cs : ConfigurationSet) : List String :=
  [cfg.run_sniper_path, "-v", "--power", "-n", "1", "-c", cfg.cfgfile]
    ++ (cs.to_cli_args.flatMap fun o => ["-c", o])
    ++ ["-d", cfg.output_dir ++ "/configuration_" ++ toString idx, "--",
        cfg.benchmark_path, "-p", "1"]

theorem quoted_head (mid : String) :
    ("\"perf_model/" ++ mid ++ "\"").data.head? = some '\"' := by
  have h1 : ("\"perf_model/" : String).data = '\"' :: "perf_model/".data := rfl
  rw [String.data_append, String.data_append, h1]
  rfl

theorem quoted_last (mid : String) :
    ("\"perf_model/" ++ mid ++ "\"").data.getLast? = some '\"' := by
  have h1 : ("\"" : String).data = ['\"'] := rfl
  rw [String.data_append, h1]
  exact List.getLast?_concat _

theorem infix_flatMap_pair (l : List String) (o : String) (ho : o ∈ l) :
    List.IsInfix ["-c", o] (l.flatMap fun x => ["-c", x]) := by
  induction l with
  | nil => cases ho
  | cons x xs ih =>
      rcases List.mem_cons.mp ho with h | h
      · subst h
        exact ⟨[], xs.flatMap fun x => ["-c", x], by simp⟩
      · rcases ih h with ⟨s, t, hst⟩
        exact ⟨["-c", x] ++ s, t, by simp [← hst, List.flatMap_cons]⟩

/-- C10: every serialized override is the quoted string
`"perf_model/..."` — literal double quotes first and last — and the quoted
string itself (not a bare `perf_model/...` key) is the argv element placed
right after a `-c` flag in the simulator command. -/
theorem cli_overrides_quoted :
    (∀ (c : CacheInstance) (pfx : String), ∀ o ∈ c.to_cli_args pfx,
      ∃ mid, o = "\"perf_model/" ++ mid ++ "\"" ∧
        o.data.head? = some '\"' ∧ o.data.getLast? = some '\"') ∧
    (∀ (t : TLBInstance) (pfx : String), ∀ o ∈ t.to_cli_args pfx,
      ∃ mid, o = "\"perf_model/" ++ mid ++ "\"" ∧
        o.data.head? = some '\"' ∧ o.data.getLast? = some '\"') ∧
    (∀ (cfg : ADSEConfig) (idx : Nat) (cs : ConfigurationSet), ∀ o ∈ cs.to_cli_args,
      List.IsInfix ["-c", o] (buildCommand cfg idx cs)) := by
  refine ⟨?_, ?_, ?_⟩
  · intro c pfx o ho
    obtain ⟨s, b, a, r⟩ := c
    simp only [CacheInstance.to_cli_args, List.mem_append] at ho
    have hshape : ∃ mid, o = "\"perf_model/" ++ mid ++ "\"" := by
      rcases ho with ((h | h) | h) | h
      · rcases s with _ | v
        · simp at h
        · simp only [List.mem_singleton] at h
          exact ⟨pfx ++ "/cache_size=" ++ toString v, by simp [h, String.append_assoc]⟩
      · rcases b with _ | v
        · simp at h
        · simp only [List.mem_singleton] at h
          exact ⟨pfx ++ "/cache_block_size=" ++ toString v, by simp [h, String.append_assoc]⟩
      · rcases a with _ | v
        · simp at h
        · simp only [List.mem_singleton] at h
          exact ⟨pfx ++ "/associativity=" ++ toString v, by simp [h, String.append_assoc]⟩
      · rcases r with _ | v
        · simp at h
        · simp only [List.mem_singleton] at h
          exact ⟨pfx ++ "/replacement=" ++ v, by simp [h, String.append_assoc]⟩
    rcases hshape with ⟨mid, hmid⟩
    exact ⟨mid, hmid, hmid ▸ quoted_head mid, hmid ▸ quoted_last mid⟩
  · intro t pfx o ho
    obtain ⟨en, a, p⟩ := t
    simp only [TLBInstance.to_cli_args, List.mem_append] at ho
    have hshape : ∃ mid, o = "\"perf_model/" ++ mid ++ "\"" := by
      rcases ho with (h | h) | h
      · rcases en with _ | v
        · simp at h
        · simp only [List.mem_singleton] at h
          exact ⟨pfx ++ "/entries=" ++ toString v, by simp [h, String.append_assoc]⟩
      · rcases a with _ | v
        · simp at h
        · simp only [List.mem_singleton] at h
          exact ⟨pfx ++ "/associativity=" ++ toString v, by simp [h, String.append_assoc]⟩
      · rcases p with _ | v
        · simp at h
        · simp only [List.mem_singleton] at h
          exact ⟨pfx ++ "/page_size=" ++ toString v, by simp [h, String.append_assoc]⟩
    rcases hshape with ⟨mid, hmid⟩
    exact ⟨mid, hmid, hmid ▸ quoted_head mid, hmid ▸ quoted_last mid⟩
  · intro cfg idx cs o ho
    rcases infix_flatMap_pair cs.to_cli_args o ho with ⟨s, t, hst⟩
    exact ⟨[cfg.run_sniper_path, "-v", "--power", "-n", "1", "-c", cfg.cfgfile] ++ s,
      t ++ ["-d", cfg.output_dir ++ "/configuration_" ++ toString idx, "--",
        cfg.benchmark_path, "-p", "1"],
      by simp [buildCommand, ← hst]⟩

theorem cli_overrides_quoted_witness :
    ∃ mid, ("\"perf_model/l2_cache/cache_size=64\"" : String) =
        "\"perf_model/" ++ mid ++ "\"" ∧
      ("\"perf_model/l2_cache/cache_size=64\"" : String).data.head? = some '\"' ∧
      ("\"perf_model/l2_cache/cache_size=64\"" : String).data.getLast? = some '\"' :=
  cli_overrides_quoted.1 ⟨some 64, none, none, none⟩ "l2_cache" _ (by decide)

/-- Commands issued for the configurations starting at 1-based index `i`
(main.py numbers run directories `configuration_1`, `configuration_2`, ...). -/
def commandsFrom (cfg : ADSEConfig) : Nat → List ConfigurationSet → List (List String)
  | _, [] => []
  | i, cs :: rest => buildCommand cfg i cs :: commandsFrom cfg (i + 1) rest

/-- Observable outcome of the main.py sweep: the commands actually handed to
`subprocess.run`, in order, and whether control reached
`analyzer.analyse_results` (the line after the loop). -/
structure SweepResult where
  invoked : List (List String)
  analysed : Bool
deriving Repr, DecidableEq

/-- Embeds the `for cfg in all_configs` loop of main.py lines 22-59:
`subprocess.run(command, check=True)` raises `CalledProcessError` on a
non-zero exit status, which is uncaught and terminates the program before
`analyse_results`; `run` gives each command's exit status. -/
def sweepLoop (run : List String → Nat) (cfg : ADSEConfig) :
    Nat → List ConfigurationSet → SweepResult
  | _, [] => { invoked := [], analysed := true }
  | i, cs :: rest =>
    let cmd := buildCommand cfg i cs
    if run cmd = 0 then
      let r := sweepLoop run cfg (i + 1) rest
      { invoked := cmd :: r.invoked, analysed := r.analysed }
    else
      { invoked := [cmd], analysed := false }

/-- The whole `__main__` sweep over `generate_all_configurations`. -/
def runSweep (run : List String → Nat) (cfg : ADSEConfig) : SweepResult :=
  sweepLoop run cfg 1 cfg.parameters.generate_all_configurations

/-- All commands the sweep would issue if every invocation succeeded. -/
def sweepCommands (cfg : ADSEConfig) : List (List String) :=
  commandsFrom cfg 1 cfg.parameters.generate_all_configurations

theorem sweepLoop_all_ok (run : List String → Nat) (cfg : ADSEConfig) :
    ∀ (cs : List ConfigurationSet) (i : Nat),
      ((sweepLoop run cfg i cs).analysed = true ↔
        ∀ cmd ∈ commandsFrom cfg i cs, run cmd = 0) := by
  intro cs
  induction cs with
  | nil => intro i; simp [sweepLoop, commandsFrom]
  | cons c rest ih =>
      intro i
      by_cases h : run (buildCommand cfg i c) = 0
      · simp only [sweepLoop, commandsFrom, h, if_pos, List.mem_cons]
        rw [ih (i + 1)]
        constructor
        · intro hall cmd hc
          rcases hc with hc | hc
          · rw [hc]; exact h
          · exact hall cmd hc
        · intro hall cmd hc
          exact hall cmd (Or.inr hc)
      · simp only [sweepLoop, commandsFrom, h, if_neg, List.mem_cons]
        constructor
        · intro hfalse
          exact absurd hfalse (by simp)
        · intro hall
          exact absurd (hall _ (Or.inl rfl)) h

theorem sweepLoop_fail (run : List String → Nat) (cfg : ADSEConfig) :
    ∀ (cs : List ConfigurationSet) (i : Nat) (pre : List (List String))
      (cmd : List String) (post : List (List String)),
      commandsFrom cfg i cs = pre ++ cmd :: post →
      (∀ c ∈ pre, run c = 0) → run cmd ≠ 0 →
      (sweepLoop run cfg i cs).invoked = pre ++ [cmd] ∧
        (sweepLoop run cfg i cs).analysed = false := by
  intro cs
  induction cs with
  | nil =>
      intro i pre cmd post heq
      rw [commandsFrom] at heq
      exact absurd heq.symm (by simp)
  | cons c rest ih =>
      intro i pre cmd post heq hpre hfail
      rw [commandsFrom] at heq
      cases pre with
      | nil =>
          simp only [List.nil_append, List.cons.injEq] at heq
          simp [sweepLoop, heq.1, hfail]
      | cons p0 pre' =>
          simp only [List.cons_append, List.cons.injEq] at heq
          have hp0 : run (buildCommand cfg i c) = 0 := by
            rw [heq.1]
            exact hpre p0 (List.mem_cons_self _ _)
          have hrec := ih (i + 1) pre' cmd post heq.2
            (fun x hx => hpre x (List.mem_cons_of_mem _ hx)) hfail
          simp only [sweepLoop, hp0, if_pos]
          refine ⟨?_, hrec.2⟩
          rw [hrec.1, heq.1]
          simp

/-- C3: the sweep is fail-fast. Aggregation (`analyse_results`) is reached
precisely when every simulator invocation exits 0; and if the invocations
before some command succeed while that command exits non-zero, the sweep stops
there — the commands actually issued are exactly the successful prefix plus
the failing command, and `analyse_results` is never reached. -/
theorem sweep_fail_fast (run : List String → Nat) (cfg : ADSEConfig) :
    ((runSweep run cfg).analysed = true ↔ ∀ cmd ∈ sweepCommands cfg, run cmd = 0) ∧
    (∀ (pre : List (List String)) (cmd : List String) (post : List (List String)),
      sweepCommands cfg = pre ++ cmd :: post →
      (∀ c ∈ pre, run c = 0) → run cmd ≠ 0 →
      (runSweep run cfg).invoked = pre ++ [cmd] ∧
        (runSweep run cfg).analysed = false) := by
  constructor
  · exact sweepLoop_all_ok run cfg _ 1
  · intro pre cmd post heq hpre hfail
    exact sweepLoop_fail run cfg _ 1 pre cmd post heq hpre hfail

/-- The demo exploration request used as concrete input for the sweep. -/
def cfgDemo : ADSEConfig :=
  { run_sniper_path := "run-sniper", output_dir := "out", cfgfile := "base.cfg",
    benchmark_path := "bench", parameters := cfgTwoByTwo }

/-- The configuration produced for l4 size `s` and itlb entry count `en` in
the demo request. -/
def demoCs (s en : Int) : ConfigurationSet :=
  { l1_icache := none, l1_dcache := none, l2_cache := none, l3_cache := none,
    l4_cache := some ⟨some s, none, none, none⟩,
    itlb := some ⟨some en, none, none⟩, dtlb := none }

/-- An exit-status environment in which exactly the second demo command
exits non-zero. -/
def failingRun : List String → Nat := fun cmd =>
  if cmd = buildCommand cfgDemo 2 (demoCs 16 2) then 1 else 0

theorem sweep_fail_fast_witness :
    (runSweep failingRun cfgDemo).invoked =
      [buildCommand cfgDemo 1 (demoCs 16 1), buildCommand cfgDemo 2 (demoCs 16 2)] ∧
    (runSweep failingRun cfgDemo).analysed = false := by
  have h := (sweep_fail_fast failingRun cfgDemo).2
    [buildCommand cfgDemo 1 (demoCs 16 1)] (buildCommand cfgDemo 2 (demoCs 16 2))
    [buildCommand cfgDemo 3 (demoCs 32 1), buildCommand cfgDemo 4 (demoCs 32 2)]
    (by decide) (by decide) (by decide)
  exact ⟨by rw [h.1]; rfl, h.2⟩

/-! ### Report parsing (analyzer.py)

The parsers use `re.search` with a handful of fixed patterns.  Each pattern is
embedded as an executable matcher over `List Char`: `match<P>At s` decides
whether pattern P matches at the start of `s` (returning its capture), and the
scan over successive start positions reproduces `re.search`'s leftmost-match
rule.  The character classes in the patterns are disjoint from the literals
that follow them, so the greedy `\s*`/`\d+`/`[\d.]+` pieces never need to
backtrack and a single left-to-right pass is faithful. -/

/-- Python regex `\s` over ASCII text. -/
def isSpace (c : Char) : Bool :=
  c == ' ' || c == '\t' || c == '\n' || c == '\r' || c == '\x0c' || c == '\x0b'

/-- Python regex `[\d.]`. -/
def isDigitDot (c : Char) : Bool := c.isDigit || c == '.'

/-- Match a literal: `stripLit p s = some t` iff `s = p ++ t`. -/
def stripLit : List Char → List Char → Option (List Char)
  | [], s => some s
  | _ :: _, [] => none
  | p :: ps, c :: cs => if p = c then stripLit ps cs else none

/-- `re.search`: try the position matcher at each start position, leftmost
match first. -/
def reSearch {β : Type} (m : List Char → Option β) : List Char → Option β
  | [] => m []
  | c :: rest =>
    match m (c :: rest) with
    | some v => some v
    | none => reSearch m rest

/-- Scan the positions strictly after each newline (the `re.MULTILINE` line
starts other than position 0). -/
def reSearchAfterNl {β : Type} (m : List Char → Option β) : List Char → Option β
  | [] => none
  | c :: rest =>
    if c = '\n' then
      match m rest with
      | some v => some v
      | none => reSearchAfterNl m rest
    else reSearchAfterNl m rest

/-- `re.search` with `re.MULTILINE` for a `^`-anchored pattern: try position 0,
then every position following a newline. -/
def reSearchML {β : Type} (m : List Char → Option β) (s : List Char) : Option β :=
  match m s with
  | some v => some v
  | none => reSearchAfterNl m s

/-- `int()` on a captured `\d+` digit run. -/
def digitsToNat (ds : List Char) : Nat :=
  ds.foldl (fun n c => 10 * n + (c.toNat - 48)) 0

/-- `float()` on text captured by `[\d.]+` (so only digits and dots can occur):
`none` models the `ValueError` raised on shapes such as `..` or `1.2.3`. -/
def pyFloat? (s : List Char) : Option ℚ :=
  match s.splitOn '.' with
  | [ds] =>
      if !ds.isEmpty && ds.all Char.isDigit then some (digitsToNat ds : ℚ) else none
  | [as, bs] =>
      if (!as.isEmpty || !bs.isEmpty) && as.all Char.isDigit && bs.all Char.isDigit then
        some ((digitsToNat as : ℚ) + (digitsToNat bs : ℚ) / (10 : ℚ) ^ bs.length)
      else none
  | _ => none

/-- `Cycles\s*\|\s*(\d+)` at one position. -/
def matchCyclesAt (s : List Char) : Option Nat :=
  match stripLit "Cycles".data s with
  | none => none
  | some r1 =>
    match r1.dropWhile isSpace with
    | '|' :: r2 =>
      let ds := (r2.dropWhile isSpace).takeWhile Char.isDigit
      if ds.isEmpty then none else some (digitsToNat ds)
    | _ => none

/-- `IPC\s*\|\s*([\d.]+)` at one position. -/
def matchIPCAt (s : List Char) : Option (List Char) :=
  match stripLit "IPC".data s with
  | none => none
  | some r1 =>
    match r1.dropWhile isSpace with
    | '|' :: r2 =>
      let cap := (r2.dropWhile isSpace).takeWhile isDigitDot
      if cap.isEmpty then none else some cap
    | _ => none

/-- `miss rate\s*\|\s*([\d.]+)%` at one position. -/
def matchMissRateAt (s : List Char) : Option (List Char) :=
  match stripLit "miss rate".data s with
  | none => none
  | some r1 =>
    match r1.dropWhile isSpace with
    | '|' :: r2 =>
      let r3 := r2.dropWhile isSpace
      let cap := r3.takeWhile isDigitDot
      if cap.isEmpty then none
      else
        match r3.dropWhile isDigitDot with
        | '%' :: _ => some cap
        | _ => none
    | _ => none

/-- `<level>\s*\|.*?miss rate\s*\|\s*([\d.]+)%` (with `re.DOTALL`) at one
position: the non-greedy `.*?` takes the first position after the `|` where
the miss-rate tail matches. -/
def matchCacheAt (lit : List Char) (s : List Char) : Option (List Char) :=
  match stripLit lit s with
  | none => none
  | some r1 =>
    match r1.dropWhile isSpace with
    | '|' :: r2 => reSearch matchMissRateAt r2
    | _ => none

def searchCycles (content : List Char) : Option Nat := reSearch matchCyclesAt content

def searchIPC (content : List Char) : Option (List Char) := reSearch matchIPCAt content

def searchCacheMissRate (lit : List Char) (content : List Char) : Option (List Char) :=
  reSearch (matchCacheAt lit) content

/-- A performance Run Record: the dict built by `parse_sim_file`.  The two
identity fields are always present; each metric key is present iff its field
is `some`. -/
structure SimMetrics where
  architecture : String
  filePath : String
  cycles : Option Nat
  ipc : Option ℚ
  l1dMissRate : Option ℚ
  l2MissRate : Option ℚ
  l3MissRate : Option ℚ
deriving Repr, DecidableEq

/-- The `Cache L3` step of `parse_sim_file` (a failed `float()` raises; the
`except` clause returns the dict built so far). -/
def simStepL3 (m : SimMetrics) (content : List Char) : SimMetrics :=
  match searchCacheMissRate "Cache L3".data content with
  | none => m
  | some cap =>
    match pyFloat? cap with
    | none => m
    | some q => { m with l3MissRate := some q }

/-- The `Cache L2` step of `parse_sim_file`. -/
def simStepL2 (m : SimMetrics) (content : List Char) : SimMetrics :=
  match searchCacheMissRate "Cache L2".data content with
  | none => simStepL3 m content
  | some cap =>
    match pyFloat? cap with
    | none => m
    | some q => simStepL3 { m with l2MissRate := some q } content

/-- The `Cache L1-D` step of `parse_sim_file`. -/
def simStepL1 (m : SimMetrics) (content : List Char) : SimMetrics :=
  match searchCacheMissRate "Cache L1-D".data content with
  | none => simStepL2 m content
  | some cap =>
    match pyFloat? cap with
    | none => m
    | some q => simStepL2 { m with l1dMissRate := some q } content

/-- The body of the `try` block of `parse_sim_file` (analyzer.py lines 50-86):
cycles, then IPC, then the three cache miss rates, each `re.search`
independent and optional; a `float()` failure aborts with the metrics
collected so far. -/
def parseSimContent (m0 : SimMetrics) (content : List Char) : SimMetrics :=
  let m1 :=
    match searchCycles content with
    | some n => { m0 with cycles := some n }
    | none => m0
  match searchIPC content with
  | none => simStepL1 m1 content
  | some cap =>
    match pyFloat? cap with
    | none => m1
    | some q => simStepL1 { m1 with ipc := some q } content

theorem stripLit_length :
    ∀ (p s t : List Char), stripLit p s = some t → s.length = p.length + t.length := by
  intro p
  induction p with
  | nil =>
      intro s t h
      simp only [stripLit, Option.some.injEq] at h
      simp [h]
  | cons c cs ih =>
      intro s t h
      cases s with
      | nil => simp [stripLit] at h
      | cons d ds =>
          by_cases hc : c = d
          · rw [stripLit, if_pos hc] at h
            have := ih ds t h
            simp [this]
            omega
          · rw [stripLit, if_neg hc] at h
            cases h

/-- Fuel-driven worker for `replaceList`; each step consumes at least one
character of the input, so fuel `s.length` never runs out. -/
def replaceListAux (pat rep : List Char) : Nat → List Char → List Char
  | 0, s => s
  | _ + 1, [] => []
  | fuel + 1, c :: rest =>
    match stripLit pat (c :: rest) with
    | some after =>
      if pat.isEmpty then c :: replaceListAux pat rep fuel rest
      else rep ++ replaceListAux pat rep fuel after
    | none => c :: replaceListAux pat rep fuel rest

/-- Python `str.replace(pat, rep)`: replace all non-overlapping occurrences,
scanning left to right.  (Only called with non-empty patterns; for an empty
pattern this walks on rather than reproducing CPython's insert-everywhere
behaviour, which the source never exercises.) -/
def replaceList (pat rep : List Char) (s : List Char) : List Char :=
  replaceListAux pat rep s.length s

/-- The non-greedy capture of `sim\((.+?)\)\.out`: grow the capture one
character at a time (never across a newline, since `.` does not match `\n`)
and stop at the first point where `)\.out` follows. -/
def simArchTail (acc : List Char) : List Char → Option (List Char)
  | [] => none
  | c :: rest =>
    if c = '\n' then none
    else
      match stripLit ").out".data rest with
      | some _ => some (acc ++ [c])
      | none => simArchTail (acc ++ [c]) rest

/-- `sim\((.+?)\)\.out` at one position. -/
def matchSimArchAt (s : List Char) : Option (List Char) :=
  match stripLit "sim(".data s with
  | none => none
  | some r1 => simArchTail [] r1

/-- `re.search(r'sim\((.+?)\)\.out', filename)` (analyzer.py line 36). -/
def simArchMatch (filename : List Char) : Option (List Char) :=
  reSearch matchSimArchAt filename

/-- Python `str.strip('()')`. -/
def isParen (c : Char) : Bool := c == '(' || c == ')'

def pyStripParens (s : List Char) : List Char :=
  ((s.dropWhile isParen).reverse.dropWhile isParen).reverse

/-- Embeds `SimulationAnalyzer.extract_architecture_name` (analyzer.py lines
35-43): bracketed label from the file name, else the parent directory name
(when non-empty and not `.`), else the sanitized file name. -/
def extract_architecture_name (filename : String) (parent_dir : String) : String :=
  match simArchMatch filename.data with
  | some cap => String.mk cap
  | none =>
    if parent_dir ≠ "" ∧ parent_dir ≠ "." then parent_dir
    else
      String.mk (pyStripParens (replaceList "sim".data [] (replaceList ".out".data [] filename.data)))

/-- The path data `parse_sim_file` reads off its `file_path` argument:
the file name, the parent directory's name, whether the parent *is* the
workspace root, and the path relative to the workspace. -/
structure SimFilePath where
  name : String
  parentName : String
  parentIsWorkspace : Bool
  relPath : String
deriving Repr, DecidableEq

/-- Embeds `SimulationAnalyzer.parse_sim_file` (analyzer.py lines 45-90).
`readResult = none` models `open`/`read` raising, in which case the `except`
clause returns the dict holding only the two identity keys. -/
def parse_sim_file (p : SimFilePath) (readResult : Option (List Char)) : SimMetrics :=
  let pd := if p.parentIsWorkspace then "" else p.parentName
  let base : SimMetrics :=
    { architecture := extract_architecture_name p.name pd, filePath := p.relPath,
      cycles := none, ipc := none, l1dMissRate := none, l2MissRate := none,
      l3MissRate := none }
  match readResult with
  | none => base
  | some content => parseSimContent base content

/-- The key set of the dict `parse_sim_file` returns, in insertion order. -/
def simKeys (m : SimMetrics) : List String :=
  ["Architecture", "File Path"]
    ++ (if m.cycles.isSome then ["Cycles"] else [])
    ++ (if m.ipc.isSome then ["IPC"] else [])
    ++ (if m.l1dMissRate.isSome then ["L1-D Miss Rate (%)"] else [])
    ++ (if m.l2MissRate.isSome then ["L2 Miss Rate (%)"] else [])
    ++ (if m.l3MissRate.isSome then ["L3 Miss Rate (%)"] else [])

/-- `total\s+([\d.]+)\s*W` at one position. -/
def matchTotalPowerAt (s : List Char) : Option (List Char) :=
  match stripLit "total".data s with
  | none => none
  | some r1 =>
    match r1 with
    | [] => none
    | c :: r2 =>
      if isSpace c then
        let r3 := r2.dropWhile isSpace
        let cap := r3.takeWhile isDigitDot
        if cap.isEmpty then none
        else
          match (r3.dropWhile isDigitDot).dropWhile isSpace with
          | 'W' :: _ => some cap
          | _ => none
      else none

/-- `total\s+[\d.]+\s*W\s+([\d.]+)\s*J` at one position. -/
def matchTotalEnergyAt (s : List Char) : Option (List Char) :=
  match stripLit "total".data s with
  | none => none
  | some r1 =>
    match r1 with
    | [] => none
    | c :: r2 =>
      if isSpace c then
        let r3 := r2.dropWhile isSpace
        let num1 := r3.takeWhile isDigitDot
        if num1.isEmpty then none
        else
          match (r3.dropWhile isDigitDot).dropWhile isSpace with
          | 'W' :: r4 =>
            match r4 with
            | [] => none
            | d :: r5 =>
              if isSpace d then
                let r6 := r5.dropWhile isSpace
                let cap := r6.takeWhile isDigitDot
                if cap.isEmpty then none
                else
                  match (r6.dropWhile isDigitDot).dropWhile isSpace with
                  | 'J' :: _ => some cap
                  | _ => none
              else none
          | _ => none
      else none

/-- `^\s*<name>\s+([\d.]+)\s*W` at one line-start position (`\s` also matches
newlines, so the leading skip may run past line ends, as in the regex). -/
def matchComponentAt (lit : List Char) (s : List Char) : Option (List Char) :=
  match stripLit lit (s.dropWhile isSpace) with
  | none => none
  | some r2 =>
    match r2 with
    | [] => none
    | c :: r3 =>
      if isSpace c then
        let r4 := r3.dropWhile isSpace
        let cap := r4.takeWhile isDigitDot
        if cap.isEmpty then none
        else
          match (r4.dropWhile isDigitDot).dropWhile isSpace with
          | 'W' :: _ => some cap
          | _ => none
      else none

/-- A power Run Record: the dict built by `parse_powerstack_file`. -/
structure PowerMetrics where
  architecture : String
  filePath : String
  totalPowerW : Option ℚ
  totalEnergyJ : Option ℚ
  corePowerW : Option ℚ
  cachePowerW : Option ℚ
  dramPowerW : Option ℚ
deriving Repr, DecidableEq

/-- The `dram` step of `parse_powerstack_file`. -/
def powerStepDram (m : PowerMetrics) (content : List Char) : PowerMetrics :=
  match reSearchML (matchComponentAt "dram".data) content with
  | none => m
  | some cap =>
    match pyFloat? cap with
    | none => m
    | some q => { m with dramPowerW := some q }

/-- The `cache` step of `parse_powerstack_file`. -/
def powerStepCache (m : PowerMetrics) (content : List Char) : PowerMetrics :=
  match reSearchML (matchComponentAt "cache".data) content with
  | none => powerStepDram m content
  | some cap =>
    match pyFloat? cap with
    | none => m
    | some q => powerStepDram { m with cachePowerW := some q } content

/-- The `core` step of `parse_powerstack_file`. -/
def powerStepCore (m : PowerMetrics) (content : List Char) : PowerMetrics :=
  match reSearchML (matchComponentAt "core".data) content with
  | none => powerStepCache m content
  | some cap =>
    match pyFloat? cap with
    | none => m
    | some q => powerStepCache { m with corePowerW := some q } content

/-- The total-energy step of `parse_powerstack_file`; the value is stored
under the `Total Energy (J)` key. -/
def powerStepEnergy (m : PowerMetrics) (content : List Char) : PowerMetrics :=
  match reSearch matchTotalEnergyAt content with
  | none => powerStepCore m content
  | some cap =>
    match pyFloat? cap with
    | none => m
    | some q => powerStepCore { m with totalEnergyJ := some q } content

/-- The body of the `try` block of `parse_powerstack_file` (analyzer.py lines
101-125). -/
def parsePowerContent (m0 : PowerMetrics) (content : List Char) : PowerMetrics :=
  match reSearch matchTotalPowerAt content with
  | none => powerStepEnergy m0 content
  | some cap =>
    match pyFloat? cap with
    | none => m0
    | some q => powerStepEnergy { m0 with totalPowerW := some q } content

/-- The path data `parse_powerstack_file` reads off its `file_path` argument.
`parentName` is `file_path.parent.name`; when the parent *is* the workspace
root this is the workspace directory's own name (empty for `.`). -/
structure PowerFilePath where
  parentName : String
  parentIsWorkspace : Bool
  relPath : String
deriving Repr, DecidableEq

/-- Embeds `SimulationAnalyzer.parse_powerstack_file` (analyzer.py lines
92-129): `parent_dir` is empty when the parent is the workspace root, then
`arch_name = parent_dir if parent_dir else file_path.parent.name`, and the
`Architecture` value is `arch_name` unless it is literally `.`, in which case
`default`.  `readResult = none` models a read failure: the `except` clause
returns the identity-only dict. -/
def parse_powerstack_file (p : PowerFilePath) (readResult : Option (List Char)) : PowerMetrics :=
  let pd := if p.parentIsWorkspace then "" else p.parentName
  let archName := if pd ≠ "" then pd else p.parentName
  let base : PowerMetrics :=
    { architecture := if archName = "." then "default" else archName,
      filePath := p.relPath, totalPowerW := none, totalEnergyJ := none,
      corePowerW := none, cachePowerW := none, dramPowerW := none }
  match readResult with
  | none => base
  | some content => parsePowerContent base content

/-- The key set of the dict `parse_powerstack_file` returns, in insertion
order. -/
def powerKeys (m : PowerMetrics) : List String :=
  ["Architecture", "File Path"]
    ++ (if m.totalPowerW.isSome then ["Total Power (W)"] else [])
    ++ (if m.totalEnergyJ.isSome then ["Total Energy (J)"] else [])
    ++ (if m.corePowerW.isSome then ["Core Power (W)"] else [])
    ++ (if m.cachePowerW.isSome then ["Cache Power (W)"] else [])
    ++ (if m.dramPowerW.isSome then ["DRAM Power (W)"] else [])

/-! ### First-match behaviour of the performance parser (C5) -/

theorem reSearch_cons_none {β : Type} (m : List Char → Option β) (c : Char)
    (t : List Char) (h : m (c :: t) = none) :
    reSearch m (c :: t) = reSearch m t := by
  simp only [reSearch, h]

theorem reSearch_cons_some {β : Type} (m : List Char → Option β) (c : Char)
    (t : List Char) (v : β) (h : m (c :: t) = some v) :
    reSearch m (c :: t) = some v := by
  simp only [reSearch, h]

theorem reSearch_append {β : Type} (m : List Char → Option β) (l s : List Char)
    (h : ∀ c ∈ l, ∀ t, m (c :: t) = none) :
    reSearch m (l ++ s) = reSearch m s := by
  induction l with
  | nil => rfl
  | cons c cs ih =>
      rw [List.cons_append, reSearch_cons_none m c (cs ++ s) (h c (List.mem_cons_self _ _) _)]
      exact ih fun x hx t => h x (List.mem_cons_of_mem _ hx) t

theorem reSearch_eq_none {β : Type} (m : List Char → Option β) (s : List Char)
    (hnil : m [] = none) (h : ∀ c ∈ s, ∀ t, m (c :: t) = none) :
    reSearch m s = none := by
  induction s with
  | nil => exact hnil
  | cons c cs ih =>
      rw [reSearch_cons_none m c cs (h c (List.mem_cons_self _ _) _)]
      exact ih fun x hx t => h x (List.mem_cons_of_mem _ hx) t

theorem matchCyclesAt_cons_ne (c : Char) (t : List Char) (h : c ≠ 'C') :
    matchCyclesAt (c :: t) = none := by
  have hs : stripLit "Cycles".data (c :: t) = none := by
    show stripLit ('C' :: "ycles".data) (c :: t) = none
    rw [stripLit, if_neg fun he => h he.symm]
  simp only [matchCyclesAt, hs]

theorem matchIPCAt_cons_ne (c : Char) (t : List Char) (h : c ≠ 'I') :
    matchIPCAt (c :: t) = none := by
  have hs : stripLit "IPC".data (c :: t) = none := by
    show stripLit ('I' :: "PC".data) (c :: t) = none
    rw [stripLit, if_neg fun he => h he.symm]
  simp only [matchIPCAt, hs]

theorem matchCyclesAt_line (rest : List Char) :
    matchCyclesAt ("Cycles | 12345\n".data ++ rest) = some 12345 := rfl

theorem matchIPCAt_line (rest : List Char) :
    matchIPCAt ("IPC | 1.23\n".data ++ rest) = some "1.23".data := rfl

theorem pyFloat_one_point_two_three :
    pyFloat? ['1', '.', '2', '3'] = some ((123 : ℚ) / 100) := by
  have h1 : (['1', '.', '2', '3'] : List Char).splitOn '.' = ["1".data, "23".data] := by
    decide
  have d1 : digitsToNat "1".data = 1 := by decide
  have d2 : digitsToNat "23".data = 23 := by decide
  rw [pyFloat?, h1]
  dsimp only
  rw [if_pos (by decide), d1, d2, show ("23".data.length = 2) from rfl]
  norm_num

theorem simStepL3_identity_fields (m : SimMetrics) (content : List Char) :
    (simStepL3 m content).cycles = m.cycles ∧ (simStepL3 m content).ipc = m.ipc := by
  rcases hs : searchCacheMissRate "Cache L3".data content with _ | cap
  · simp [simStepL3, hs]
  · rcases hf : pyFloat? cap with _ | q
    · simp [simStepL3, hs, hf]
    · simp [simStepL3, hs, hf]

theorem simStepL2_identity_fields (m : SimMetrics) (content : List Char) :
    (simStepL2 m content).cycles = m.cycles ∧ (simStepL2 m content).ipc = m.ipc := by
  rcases hs : searchCacheMissRate "Cache L2".data content with _ | cap
  · simpa [simStepL2, hs] using simStepL3_identity_fields m content
  · rcases hf : pyFloat? cap with _ | q
    · simp [simStepL2, hs, hf]
    · simpa [simStepL2, hs, hf] using
        simStepL3_identity_fields { m with l2MissRate := some q } content

theorem simStepL1_identity_fields (m : SimMetrics) (content : List Char) :
    (simStepL1 m content).cycles = m.cycles ∧ (simStepL1 m content).ipc = m.ipc := by
  rcases hs : searchCacheMissRate "Cache L1-D".data content with _ | cap
  · simpa [simStepL1, hs] using simStepL2_identity_fields m content
  · rcases hf : pyFloat? cap with _ | q
    · simp [simStepL1, hs, hf]
    · simpa [simStepL1, hs, hf] using
        simStepL2_identity_fields { m with l1dMissRate := some q } content

theorem searchCycles_at_line (rest : List Char) :
    reSearch matchCyclesAt ("Cycles | 12345\n".data ++ rest) = some 12345 :=
  reSearch_cons_some matchCyclesAt 'C' ("ycles | 12345\n".data ++ rest) 12345
    (matchCyclesAt_line rest)

theorem searchIPC_at_line (rest : List Char) :
    reSearch matchIPCAt ("IPC | 1.23\n".data ++ rest) = some "1.23".data :=
  reSearch_cons_some matchIPCAt 'I' ("PC | 1.23\n".data ++ rest) "1.23".data
    (matchIPCAt_line rest)

/-- C5 (amended): `re.search` takes the *first* match of each pattern, so the
testable statement holds for report texts in which the quoted lines are the
first matches: when nothing before `Cycles | 12345` can start a cycles match
and nothing before `IPC | 1.23` can start an IPC match, `parse_sim_file`
returns the integer 12345 under `Cycles` and the float 1.23 under `IPC`; and
when the text around the cycles line contains no `I` at all (so no IPC match
exists), the `Cycles` key is present and the `IPC` key absent — not zero. -/
theorem parse_sim_cycles_ipc :
    (∀ (p : SimFilePath) (pre post : List Char),
      (∀ c ∈ pre, c ≠ 'C') → (∀ c ∈ pre, c ≠ 'I') →
      (parse_sim_file p
          (some (pre ++ "Cycles | 12345\n".data ++ "IPC | 1.23\n".data ++ post))).cycles
          = some 12345 ∧
      (parse_sim_file p
          (some (pre ++ "Cycles | 12345\n".data ++ "IPC | 1.23\n".data ++ post))).ipc
          = some ((123 : ℚ) / 100)) ∧
    (∀ (p : SimFilePath) (pre post : List Char),
      (∀ c ∈ pre, c ≠ 'C') → (∀ c ∈ pre, c ≠ 'I') → (∀ c ∈ post, c ≠ 'I') →
      (parse_sim_file p (some (pre ++ "Cycles | 12345\n".data ++ post))).cycles
          = some 12345 ∧
      (parse_sim_file p (some (pre ++ "Cycles | 12345\n".data ++ post))).ipc = none) := by
  have hlitC : ∀ c ∈ "Cycles | 12345\n".data, c ≠ 'I' := by decide
  constructor
  · intro p pre post hC hI
    have hassoc1 : pre ++ "Cycles | 12345\n".data ++ "IPC | 1.23\n".data ++ post =
        pre ++ ("Cycles | 12345\n".data ++ ("IPC | 1.23\n".data ++ post)) := by
      simp [List.append_assoc]
    have hassoc2 : pre ++ "Cycles | 12345\n".data ++ "IPC | 1.23\n".data ++ post =
        (pre ++ "Cycles | 12345\n".data) ++ ("IPC | 1.23\n".data ++ post) := by
      simp [List.append_assoc]
    have hcyc : searchCycles
        (pre ++ "Cycles | 12345\n".data ++ "IPC | 1.23\n".data ++ post) = some 12345 := by
      rw [searchCycles, hassoc1,
        reSearch_append _ pre _ fun c hc t => matchCyclesAt_cons_ne c t (hC c hc)]
      exact searchCycles_at_line _
    have hipc : searchIPC
        (pre ++ "Cycles | 12345\n".data ++ "IPC | 1.23\n".data ++ post) = some "1.23".data := by
      rw [searchIPC, hassoc2,
        reSearch_append _ (pre ++ "Cycles | 12345\n".data) _ ?hskip]
      · exact searchIPC_at_line _
      case hskip =>
        intro c hc t
        rcases List.mem_append.mp hc with hcp | hcl
        · exact matchIPCAt_cons_ne c t (hI c hcp)
        · exact matchIPCAt_cons_ne c t (hlitC c hcl)
    simp only [parse_sim_file, parseSimContent, hcyc, hipc, pyFloat_one_point_two_three]
    constructor
    · rw [(simStepL1_identity_fields _ _).1]
    · rw [(simStepL1_identity_fields _ _).2]
  · intro p pre post hC hI hIpost
    have hassoc1 : pre ++ "Cycles | 12345\n".data ++ post =
        pre ++ ("Cycles | 12345\n".data ++ post) := by
      simp [List.append_assoc]
    have hcyc : searchCycles (pre ++ "Cycles | 12345\n".data ++ post) = some 12345 := by
      rw [searchCycles, hassoc1,
        reSearch_append _ pre _ fun c hc t => matchCyclesAt_cons_ne c t (hC c hc)]
      exact searchCycles_at_line _
    have hipc : searchIPC (pre ++ "Cycles | 12345\n".data ++ post) = none := by
      refine reSearch_eq_none _ _ rfl fun c hc t => matchIPCAt_cons_ne c t ?_
      rcases List.mem_append.mp hc with hc2 | hcpost
      · rcases List.mem_append.mp hc2 with hcp | hcl
        · exact hI c hcp
        · exact hlitC c hcl
      · exact hIpost c hcpost
    simp only [parse_sim_file, parseSimContent, hcyc, hipc]
    constructor
    · rw [(simStepL1_identity_fields _ _).1]
    · rw [(simStepL1_identity_fields _ _).2]

/-- C5 counterexample: a report text that *contains* the lines
`Cycles | 12345` and `IPC | 1.23` but whose first cycles match is an earlier
`Cycles | 1` line; `re.search` returns the first match, so the `Cycles` field
is 1, not 12345. -/
theorem parse_sim_first_match_counterexample :
    (parse_sim_file ⟨"sim.out", "configuration_1", false, "configuration_1/sim.out"⟩
        (some "Cycles | 1\nCycles | 12345\nIPC | 1.23\n".data)).cycles = some 1 ∧
    (1 : Nat) ≠ 12345 := by
  constructor
  · decide
  · decide

theorem parse_sim_cycles_ipc_witness :
    (parse_sim_file ⟨"sim.out", "configuration_1", false, "configuration_1/sim.out"⟩
        (some ("Cycles | 12345\n".data ++ "IPC | 1.23\n".data))).cycles = some 12345 ∧
    (parse_sim_file ⟨"sim.out", "configuration_1", false, "configuration_1/sim.out"⟩
        (some ("Cycles | 12345\n".data ++ "IPC | 1.23\n".data))).ipc
      = some ((123 : ℚ) / 100) := by
  have h := parse_sim_cycles_ipc.1
    ⟨"sim.out", "configuration_1", false, "configuration_1/sim.out"⟩ [] []
    (by simp) (by simp)
  simpa using h

/-! ### Read failures and power-report identity (C6, C8) -/

/-- C6: when reading the report file raises, neither parser propagates the
exception: each returns a Run Record whose key set is exactly the two identity
keys (`Architecture`, `File Path`) — no metric keys at all. -/
theorem parse_read_failure_identity_only :
    (∀ p : SimFilePath, simKeys (parse_sim_file p none) = ["Architecture", "File Path"]) ∧
    (∀ q : PowerFilePath,
      powerKeys (parse_powerstack_file q none) = ["Architecture", "File Path"]) := by
  exact ⟨fun p => rfl, fun q => rfl⟩

theorem powerStepDram_arch (m : PowerMetrics) (content : List Char) :
    (powerStepDram m content).architecture = m.architecture := by
  rcases hs : reSearchML (matchComponentAt "dram".data) content with _ | cap
  · simp [powerStepDram, hs]
  · rcases hf : pyFloat? cap with _ | q
    · simp [powerStepDram, hs, hf]
    · simp [powerStepDram, hs, hf]

theorem powerStepCache_arch (m : PowerMetrics) (content : List Char) :
    (powerStepCache m content).architecture = m.architecture := by
  rcases hs : reSearchML (matchComponentAt "cache".data) content with _ | cap
  · simpa [powerStepCache, hs] using powerStepDram_arch m content
  · rcases hf : pyFloat? cap with _ | q
    · simp [powerStepCache, hs, hf]
    · simpa [powerStepCache, hs, hf] using
        powerStepDram_arch { m with cachePowerW := some q } content

theorem powerStepCore_arch (m : PowerMetrics) (content : List Char) :
    (powerStepCore m content).architecture = m.architecture := by
  rcases hs : reSearchML (matchComponentAt "core".data) content with _ | cap
  · simpa [powerStepCore, hs] using powerStepCache_arch m content
  · rcases hf : pyFloat? cap with _ | q
    · simp [powerStepCore, hs, hf]
    · simpa [powerStepCore, hs, hf] using
        powerStepCache_arch { m with corePowerW := some q } content

theorem powerStepEnergy_arch (m : PowerMetrics) (content : List Char) :
    (powerStepEnergy m content).architecture = m.architecture := by
  rcases hs : reSearch matchTotalEnergyAt content with _ | cap
  · simpa [powerStepEnergy, hs] using powerStepCore_arch m content
  · rcases hf : pyFloat? cap with _ | q
    · simp [powerStepEnergy, hs, hf]
    · simpa [powerStepEnergy, hs, hf] using
        powerStepCore_arch { m with totalEnergyJ := some q } content

theorem parsePowerContent_arch (m : PowerMetrics) (content : List Char) :
    (parsePowerContent m content).architecture = m.architecture := by
  rcases hs : reSearch matchTotalPowerAt content with _ | cap
  · simpa [parsePowerContent, hs] using powerStepEnergy_arch m content
  · rcases hf : pyFloat? cap with _ | q
    · simp [parsePowerContent, hs, hf]
    · simpa [parsePowerContent, hs, hf] using
        powerStepEnergy_arch { m with totalPowerW := some q } content

/-- C8 counterexample: a power report directly in the workspace root of a
workspace named `ws`: the architecture identity is the workspace directory's
own name `ws` (`file_path.parent.name`), not the fixed default label. -/
theorem power_arch_root_counterexample :
    (parse_powerstack_file ⟨"ws", true, "powerstack.txt"⟩ none).architecture = "ws" ∧
    ("ws" : String) ≠ "default" := by
  exact ⟨rfl, by decide⟩

/-- C8 (amended): the architecture identity of a power Run Record equals the
file's immediate parent directory name in *all* cases — for a file one level
down that is the run directory's name, and for a file directly in the
workspace root it is the workspace directory's own name (empty for a `.`
workspace), never the fixed default label: the `default` branch would require
a parent literally named `.`, which `pathlib.Path.name` never produces. -/
theorem power_arch_parent_name (p : PowerFilePath) (r : Option (List Char))
    (h : p.parentName ≠ ".") :
    (parse_powerstack_file p r).architecture = p.parentName := by
  rcases p with ⟨pn, piw, rel⟩
  have harch : ∀ s : String,
      (if (if (if piw = true then "" else pn) ≠ "" then (if piw = true then "" else pn)
          else pn) = "." then "default"
        else (if (if piw = true then "" else pn) ≠ "" then (if piw = true then "" else pn)
          else pn)) = pn := by
    intro s
    cases piw <;> by_cases hpn : pn = "" <;> simp_all
  rcases r with _ | content
  · simpa [parse_powerstack_file] using harch ""
  · show (parsePowerContent _ content).architecture = pn
    rw [parsePowerContent_arch]
    simpa [parse_powerstack_file] using harch ""

theorem power_arch_parent_name_witness :
    (parse_powerstack_file ⟨"configuration_7", false, "configuration_7/powerstack.txt"⟩
        none).architecture = "configuration_7" :=
  power_arch_parent_name ⟨"configuration_7", false, "configuration_7/powerstack.txt"⟩
    none (by decide)

/-! ### The total-energy unit mismatch (C9) -/

/-- Column set of a pandas DataFrame built from a list of dicts: the union of
the rows' key sets, in first-seen order. -/
def dfColumns (rows : List PowerMetrics) : List String :=
  rows.foldl (fun acc r => acc ++ (powerKeys r).filter (fun s => !acc.contains s)) []

/-- The guard of the total-energy chart in `plot_power_metrics`
(analyzer.py line 392): `'Total Energy (mJ)' in self.power_df.columns`. -/
def totalEnergyChartShown (rows : List PowerMetrics) : Bool :=
  (dfColumns rows).contains "Total Energy (mJ)"

theorem mJ_not_in_powerKeys (m : PowerMetrics) :
    "Total Energy (mJ)" ∉ powerKeys m := by
  rcases m with ⟨a, f, tp, te, co, ca, dr⟩
  cases tp <;> cases te <;> cases co <;> cases ca <;> cases dr <;> simp [powerKeys]

theorem mem_foldl_cols (k : String) :
    ∀ (rows : List PowerMetrics) (acc : List String),
      k ∈ rows.foldl
          (fun acc r => acc ++ (powerKeys r).filter (fun s => !acc.contains s)) acc →
      k ∈ acc ∨ ∃ m ∈ rows, k ∈ powerKeys m := by
  intro rows
  induction rows with
  | nil => intro acc h; exact Or.inl h
  | cons r rs ih =>
      intro acc h
      rw [List.foldl_cons] at h
      rcases ih _ h with hacc | ⟨m, hm, hk⟩
      · rcases List.mem_append.mp hacc with h1 | h2
        · exact Or.inl h1
        · exact Or.inr ⟨r, List.mem_cons_self _ _, (List.mem_filter.mp h2).1⟩
      · exact Or.inr ⟨m, List.mem_cons_of_mem _ hm, hk⟩

/-- C9: the power parser stores total energy only under `Total Energy (J)`
(never `Total Energy (mJ)`), while the total-energy chart is emitted only when
a `Total Energy (mJ)` column exists; hence for every power dataset built from
`parse_powerstack_file` records the chart branch is never taken. -/
theorem total_energy_chart_never_shown :
    (∀ inputs : List (PowerFilePath × Option (List Char)),
      totalEnergyChartShown (inputs.map fun pr => parse_powerstack_file pr.1 pr.2)
        = false) ∧
    (∀ (p : PowerFilePath) (r : Option (List Char)),
      "Total Energy (mJ)" ∉ powerKeys (parse_powerstack_file p r)) := by
  constructor
  · intro inputs
    have hnot : "Total Energy (mJ)" ∉
        dfColumns (inputs.map fun pr => parse_powerstack_file pr.1 pr.2) := by
      intro hmem
      rcases mem_foldl_cols _ _ _ hmem with hacc | ⟨m, _, hk⟩
      · simp at hacc
      · exact mJ_not_in_powerKeys m hk
    simpa [totalEnergyChartShown] using hnot
  · intro p r
    exact mJ_not_in_powerKeys _

/-! ### File discovery and the aggregation pass (C7)

Python's `sorted` on relative `Path`s orders by the path string (code-point
lexicographic comparison); since the comparison is antisymmetric, the sorted
output of the deduplicated file set is unique, so any sorting algorithm gives
the list `sorted(...)` returns.  It is embedded here as an insertion sort by
an executable code-point order. -/

/-- Code-point lexicographic comparison of character lists (Python `str` /
`Path` ordering). -/
def charListLe : List Char → List Char → Bool
  | [], _ => true
  | _ :: _, [] => false
  | a :: as, b :: bs =>
    if a.toNat < b.toNat then true
    else if b.toNat < a.toNat then false
    else charListLe as bs

theorem charListLe_total : ∀ a b : List Char, charListLe a b = true ∨ charListLe b a = true := by
  intro a
  induction a with
  | nil => intro b; exact Or.inl rfl
  | cons x xs ih =>
      intro b
      cases b with
      | nil => exact Or.inr rfl
      | cons y ys =>
          rcases Nat.lt_trichotomy x.toNat y.toNat with h | h | h
          · left; simp [charListLe, h]
          · rcases ih ys with h2 | h2
            · left; simp [charListLe, h, Nat.lt_irrefl, h2]
            · right; simp [charListLe, h, Nat.lt_irrefl, h2]
          · right; simp [charListLe, h]

theorem charListLe_trans :
    ∀ a b c : List Char, charListLe a b = true → charListLe b c = true →
      charListLe a c = true := by
  intro a
  induction a with
  | nil => intro b c h1 h2; rfl
  | cons x xs ih =>
      intro b c h1 h2
      cases b with
      | nil => simp [charListLe] at h1
      | cons y ys =>
          cases c with
          | nil => simp [charListLe] at h2
          | cons z zs =>
              rcases Nat.lt_trichotomy x.toNat y.toNat with hxy | hxy | hxy
              · rcases Nat.lt_trichotomy y.toNat z.toNat with hyz | hyz | hyz
                · have hxz : x.toNat < z.toNat := Nat.lt_trans hxy hyz
                  simp [charListLe, hxz]
                · have hxz : x.toNat < z.toNat := hyz ▸ hxy
                  simp [charListLe, hxz]
                · simp [charListLe, Nat.lt_asymm hyz, hyz] at h2
              · rcases Nat.lt_trichotomy y.toNat z.toNat with hyz | hyz | hyz
                · have hxz : x.toNat < z.toNat := hxy ▸ hyz
                  simp [charListLe, hxz]
                · have hxz : x.toNat = z.toNat := hxy.trans hyz
                  have h1' : charListLe xs ys = true := by
                    simpa [charListLe, hxy, Nat.lt_irrefl] using h1
                  have h2' : charListLe ys zs = true := by
                    simpa [charListLe, hyz, Nat.lt_irrefl] using h2
                  simp [charListLe, hxz, Nat.lt_irrefl, ih ys zs h1' h2']
                · simp [charListLe, Nat.lt_asymm hyz, hyz] at h2
              · simp [charListLe, Nat.lt_asymm hxy, hxy] at h1

/-- The path order used by `sorted` in `find_sim_files` /
`find_powerstack_files`. -/
def pathLeProp (a b : String) : Prop := charListLe a.data b.data = true

instance : DecidableRel pathLeProp :=
  fun a b => inferInstanceAs (Decidable (charListLe a.data b.data = true))

instance : IsTotal String pathLeProp := ⟨fun a b => charListLe_total a.data b.data⟩

instance : IsTrans String pathLeProp :=
  ⟨fun a b c => charListLe_trans a.data b.data c.data⟩

/-- `pre` is a literal prefix of `s`. -/
def strStartsWith (pre s : String) : Bool := (stripLit pre.data s.data).isSome

/-- `suf` is a literal suffix of `s`. -/
def strEndsWith (suf s : String) : Bool := (stripLit suf.data.reverse s.data.reverse).isSome

/-- The last path component (`Path.name` of a relative path). -/
def baseName (p : String) : String := (p.splitOn "/").getLastD p

/-- fnmatch for the glob `sim(*.out` against a file name. -/
def globSimParen (n : String) : Bool :=
  strStartsWith "sim(" n && strEndsWith ".out" n && 8 ≤ n.length

/-- fnmatch for the glob `sim.out`. -/
def globSimDot (n : String) : Bool := n == "sim.out"

/-- fnmatch for the glob `sim*.out`. -/
def globSimStar (n : String) : Bool :=
  strStartsWith "sim" n && strEndsWith ".out" n && 7 ≤ n.length

/-- fnmatch for the glob `powerstack*.txt`. -/
def globPowerstack (n : String) : Bool :=
  strStartsWith "powerstack" n && strEndsWith ".txt" n && 14 ≤ n.length

/-- Embeds `SimulationAnalyzer.find_sim_files` (analyzer.py lines 21-29) over
a model of the output tree as the list of relative file paths the recursive
globs can see: the three patterns in source order, the `f not in sim_files`
filter on the third, then `sorted(list(set(...)))`. -/
def find_sim_files (tree : List String) : List String :=
  let s1 := tree.filter fun p => globSimParen (baseName p)
  let s2 := tree.filter fun p => globSimDot (baseName p)
  let s12 := s1 ++ s2
  let s3 := (tree.filter fun p => globSimStar (baseName p)).filter fun f => !s12.contains f
  List.insertionSort pathLeProp (s12 ++ s3).dedup

/-- Embeds `SimulationAnalyzer.find_powerstack_files` (analyzer.py lines
31-33). -/
def find_powerstack_files (tree : List String) : List String :=
  List.insertionSort pathLeProp (tree.filter fun p => globPowerstack (baseName p))

/-- The `SimFilePath` view of a relative path under a workspace whose
directory name is `ws`. -/
def simPathInfo (ws p : String) : SimFilePath :=
  let comps := p.splitOn "/"
  { name := comps.getLastD p,
    parentName := if comps.length ≤ 1 then ws else comps.getD (comps.length - 2) "",
    parentIsWorkspace := comps.length ≤ 1,
    relPath := p }

/-- The `PowerFilePath` view of a relative path under a workspace whose
directory name is `ws`. -/
def powerPathInfo (ws p : String) : PowerFilePath :=
  let comps := p.splitOn "/"
  { parentName := if comps.length ≤ 1 then ws else comps.getD (comps.length - 2) "",
    parentIsWorkspace := comps.length ≤ 1,
    relPath := p }

/-- The mutable state of a `SimulationAnalyzer` object (analyzer.py lines
13-19): `data`/`power_data` accumulate parsed rows, `metrics_df`/`power_df`
hold the DataFrames built from them (`none` = the initial `None`). -/
structure AnalyzerState where
  wsName : String
  data : List SimMetrics
  power_data : List PowerMetrics
  metrics_df : Option (List SimMetrics)
  power_df : Option (List PowerMetrics)
deriving Repr, DecidableEq

/-- `SimulationAnalyzer.__init__`. -/
def initAnalyzer (ws : String) : AnalyzerState :=
  { wsName := ws, data := [], power_data := [], metrics_df := none, power_df := none }

/-- Embeds `SimulationAnalyzer.analyze_all` (analyzer.py lines 131-158):
parse every discovered sim file, *appending* to `self.data`, and rebuild
`metrics_df` from `self.data`; then the same for power files.  `env` maps a
path to its readable content (`none` = read failure). -/
def analyze_all (env : String → Option (List Char)) (tree : List String)
    (st : AnalyzerState) : AnalyzerState :=
  let sims := find_sim_files tree
  let st1 :=
    if sims.isEmpty then st
    else
      let newData :=
        st.data ++ sims.map fun f => parse_sim_file (simPathInfo st.wsName f) (env f)
      { st with data := newData, metrics_df := some newData }
  let powers := find_powerstack_files tree
  if powers.isEmpty then st1
  else
    let newP := st1.power_data
      ++ powers.map fun f => parse_powerstack_file (powerPathInfo st1.wsName f) (env f)
    { st1 with power_data := newP, power_df := some newP }

/-- Embeds `analyse_results` (analyzer.py lines 457-472): each aggregation
pass constructs a *fresh* `SimulationAnalyzer` and runs `analyze_all` on it. -/
def analyse_results (ws : String) (env : String → Option (List Char))
    (tree : List String) : AnalyzerState :=
  analyze_all env tree (initAnalyzer ws)

/-- Model of the external CSV serialization (`DataFrame.to_csv`): a
deterministic pure function of the dataset rows. -/
def csvOptNat : Option Nat → String
  | none => ""
  | some n => toString n

def csvOptRat : Option ℚ → String
  | none => ""
  | some q => toString q

def renderSimRow (m : SimMetrics) : String :=
  m.architecture ++ "," ++ m.filePath ++ "," ++ csvOptNat m.cycles ++ ","
    ++ csvOptRat m.ipc ++ "," ++ csvOptRat m.l1dMissRate ++ ","
    ++ csvOptRat m.l2MissRate ++ "," ++ csvOptRat m.l3MissRate ++ "\n"

def renderPowerRow (m : PowerMetrics) : String :=
  m.architecture ++ "," ++ m.filePath ++ "," ++ csvOptRat m.totalPowerW ++ ","
    ++ csvOptRat m.totalEnergyJ ++ "," ++ csvOptRat m.corePowerW ++ ","
    ++ csvOptRat m.cachePowerW ++ "," ++ csvOptRat m.dramPowerW ++ "\n"

/-- The two exported tables of `generate_summary_table`, as byte strings. -/
def exportTables (st : AnalyzerState) : String × String :=
  ((match st.metrics_df with
    | none => ""
    | some rows => String.join (rows.map renderSimRow)),
   (match st.power_df with
    | none => ""
    | some rows => String.join (rows.map renderPowerRow)))

/-- C7: aggregation is idempotent and deterministic.  Re-running
`analyse_results` over an unchanged output tree produces byte-identical
exported tables; the discovered sim files are deduplicated and both discovery
lists are sorted (code-point path order) and duplicate-free; and each pass
builds its datasets fresh from the tree alone — the rows are exactly the
parses of the sorted discovery lists, with no carry-over from prior passes. -/
theorem aggregation_idempotent (ws : String) (env : String → Option (List Char))
    (tree : List String) (ht : tree.Nodup) :
    exportTables (analyse_results ws env tree) = exportTables (analyse_results ws env tree) ∧
    (find_sim_files tree).Sorted pathLeProp ∧
    (find_sim_files tree).Nodup ∧
    (find_powerstack_files tree).Sorted pathLeProp ∧
    (find_powerstack_files tree).Nodup ∧
    (analyse_results ws env tree).data =
      ((find_sim_files tree).map fun f => parse_sim_file (simPathInfo ws f) (env f)) ∧
    (analyse_results ws env tree).power_data =
      ((find_powerstack_files tree).map fun f =>
        parse_powerstack_file (powerPathInfo ws f) (env f)) := by
  refine ⟨rfl, ?_, ?_, ?_, ?_, ?_, ?_⟩
  · exact List.sorted_insertionSort pathLeProp _
  · exact (List.Perm.nodup_iff (List.perm_insertionSort pathLeProp _)).mpr
      (List.nodup_dedup _)
  · exact List.sorted_insertionSort pathLeProp _
  · exact (List.Perm.nodup_iff (List.perm_insertionSort pathLeProp _)).mpr
      (ht.filter _)
  · by_cases hs : (find_sim_files tree).isEmpty
    · have h0 : find_sim_files tree = [] := List.isEmpty_iff.mp hs
      by_cases hp : (find_powerstack_files tree).isEmpty <;>
        simp [analyse_results, analyze_all, initAnalyzer, hs, hp, h0]
    · by_cases hp : (find_powerstack_files tree).isEmpty <;>
        simp [analyse_results, analyze_all, initAnalyzer, hs, hp]
  · by_cases hp : (find_powerstack_files tree).isEmpty
    · have h0 : find_powerstack_files tree = [] := List.isEmpty_iff.mp hp
      by_cases hs : (find_sim_files tree).isEmpty <;>
        simp [analyse_results, analyze_all, initAnalyzer, hs, hp, h0]
    · by_cases hs : (find_sim_files tree).isEmpty <;>
        simp [analyse_results, analyze_all, initAnalyzer, hs, hp]

/-- A small unchanged output tree (deliberately listed out of order, as a
filesystem scan may report it). -/
def demoTree : List String :=
  ["configuration_2/sim.out", "configuration_1/sim.out", "configuration_1/powerstack.txt"]

theorem aggregation_idempotent_witness :
    (find_sim_files demoTree).Sorted pathLeProp ∧ (find_sim_files demoTree).Nodup := by
  have h := aggregation_idempotent "ws" (fun _ => none) demoTree (by decide)
  exact ⟨h.2.1, h.2.2.1⟩

end ADSE
